import Mathlib

/-
Shallow embedding of `openhands/utils/prompt.py` (PromptManager and its
message-composition helpers), together with theorems settling the frozen
claims about its behaviour.

External collaborators (the jinja2 template engine, the filesystem, the
microagent loader) are passed in as explicit function parameters; the
functions of the file itself are translated line by line from the source.
-/

set_option autoImplicit false

namespace OpenHands

/-- Python `str.strip()` over the ASCII whitespace characters: removes
leading and trailing whitespace from a string. -/
def isPyWhitespace (c : Char) : Bool :=
  c == ' ' || c == '\t' || c == '\n' || c == '\r' || c == '\x0b' || c == '\x0c'

/-- Python `str.strip()`: drop whitespace from both ends. -/
def pyStrip (s : String) : String :=
  String.mk (((s.data.dropWhile isPyWhitespace).reverse.dropWhile isPyWhitespace).reverse)

/-- A content block of a `Message`: `TextContent` or `ImageContent`. -/
inductive Content where
  | text (t : String)
  | image (image_urls : List String)
  deriving DecidableEq, Repr

/-- `isinstance(c, TextContent)`. -/
def Content.isText : Content → Bool
  | .text _ => true
  | .image _ => false

/-- A message: a role tag plus an ordered list of content blocks
(`openhands.core.message.Message`). -/
structure Message where
  role : String
  content : List Content
  deriving DecidableEq, Repr

/-- Conversation state: the iteration counters used by the turns-left
reminder (`openhands.controller.state.state.State`). -/
structure State where
  max_iterations : Int
  iteration : Int

/-- A compiled jinja2 template, modelled by its source text; rendering is an
external collaborator passed in as a function. -/
structure Template where
  source : String
  deriving DecidableEq, Repr

/-- Modelled from the spec: a `KnowledgeMicroAgent` is a named entity with a
trigger-matching capability — given arbitrary text, `match_trigger` returns
the matched trigger keyword or none. The matcher itself lives outside
`src/` (in `openhands.microagent`), so it is carried as an abstract
function field. -/
structure KnowledgeMicroAgent where
  name : String
  match_trigger : String → Option String

/-- A `RepoMicroAgent`: a named entity holding static instructional text. -/
structure RepoMicroAgent where
  name : String
  content : String
  deriving DecidableEq, Repr

/-- A `BaseMicroAgent` as seen by `load_microagents`: knowledge-scoped,
repo-scoped, or some other kind (which the code silently drops). -/
inductive BaseMicroAgent where
  | knowledge (k : KnowledgeMicroAgent)
  | repo (r : RepoMicroAgent)
  | other (name : String)

/-- The `name` attribute of a `BaseMicroAgent`. -/
def BaseMicroAgent.name : BaseMicroAgent → String
  | .knowledge k => k.name
  | .repo r => r.name
  | .other n => n

/-- `RuntimeInfo`: mapping from exposed host name to port. -/
structure RuntimeInfo where
  available_hosts : List (String × Int)

/-- `RepositoryInfo`: optional record about the cloned repository. -/
structure RepositoryInfo where
  repo_name : Option String
  repo_directory : Option String

/-- The exceptions the source can raise. -/
inductive PromptError where
  | valueError (msg : String)
  | fileNotFoundError (msg : String)
  | assertionError (msg : String)

/-- Python `dict` insertion on an association list: an existing key is
updated in place (keeping its position), a new key is appended at the end,
preserving insertion order. -/
def dictInsert {α : Type} (d : List (String × α)) (k : String) (v : α) : List (String × α) :=
  if d.any (fun p => p.1 == k) then
    d.map (fun p => if p.1 == k then (k, v) else p)
  else
    d ++ [(k, v)]

/-- The `PromptManager` state: templates, registries, disable-list and the
two info records. Registries are insertion-ordered dictionaries, modelled
as association lists. -/
structure PromptManager where
  disabled_microagents : List String
  prompt_dir : Option String
  repository_info : Option RepositoryInfo
  system_template : Template
  user_template : Template
  additional_info_template : Template
  microagent_info_template : Template
  runtime_info : RuntimeInfo
  knowledge_microagents : List (String × KnowledgeMicroAgent)
  repo_microagents : List (String × RepoMicroAgent)

/-- `os.path.join(self.prompt_dir, f"{template_name}.j2")`. -/
def templatePath (d : String) (name : String) : String :=
  d ++ "/" ++ name ++ ".j2"

/-- `PromptManager._load_template`: raises `ValueError` when the prompt
directory is unset, `FileNotFoundError` when the template file does not
exist, and otherwise compiles the file's contents. The filesystem is the
collaborator `fs` mapping a path to the file's contents when it exists. -/
def load_template (prompt_dir : Option String) (fs : String → Option String)
    (name : String) : Except PromptError Template :=
  match prompt_dir with
  | none => .error (.valueError "Prompt directory is not set")
  | some d =>
    match fs (templatePath d name) with
    | none => .error (.fileNotFoundError ("Prompt file " ++ templatePath d name ++ " not found"))
    | some txt => .ok ⟨txt⟩

/-- The registry-filling loop of `PromptManager.__init__`: register every
loaded microagent whose name is not in the disable-list, in load order. -/
def registerFiltered {α : Type} (disabled : List String)
    (loaded : List (String × α)) : List (String × α) :=
  loaded.foldl (fun acc p => if disabled.contains p.1 then acc else dictInsert acc p.1 p.2) []

/-- `PromptManager.__init__`: loads the four templates (failing fast on a
missing directory or file), then, when a microagent directory is given,
loads and partitions microagents through the loader collaborator
`loadFromDir` and registers those not present in the disable-list. -/
def initBase (prompt_dir : Option String) (disabled : List String)
    (t1 t2 t3 t4 : Template) : PromptManager :=
  { disabled_microagents := disabled
    prompt_dir := prompt_dir
    repository_info := none
    system_template := t1
    user_template := t2
    additional_info_template := t3
    microagent_info_template := t4
    runtime_info := ⟨[]⟩
    knowledge_microagents := []
    repo_microagents := [] }

def PromptManager.init (prompt_dir : Option String) (fs : String → Option String)
    (microagent_dir : Option String)
    (loadFromDir : String →
      List (String × RepoMicroAgent) × List (String × KnowledgeMicroAgent) ×
        List (String × BaseMicroAgent))
    (disabled_microagents : Option (List String)) : Except PromptError PromptManager :=
  match load_template prompt_dir fs "system_prompt" with
  | .error e => .error e
  | .ok system_template =>
  match load_template prompt_dir fs "user_prompt" with
  | .error e => .error e
  | .ok user_template =>
  match load_template prompt_dir fs "additional_info" with
  | .error e => .error e
  | .ok additional_info_template =>
  match load_template prompt_dir fs "microagent_info" with
  | .error e => .error e
  | .ok microagent_info_template =>
  match microagent_dir with
  | none =>
    .ok (initBase prompt_dir (disabled_microagents.getD [])
      system_template user_template additional_info_template microagent_info_template)
  | some d =>
    .ok { initBase prompt_dir (disabled_microagents.getD [])
            system_template user_template additional_info_template microagent_info_template with
          knowledge_microagents :=
            registerFiltered (disabled_microagents.getD []) (loadFromDir d).2.1
          repo_microagents :=
            registerFiltered (disabled_microagents.getD []) (loadFromDir d).1 }

/-- `PromptManager.load_microagents`: merge a list of microagent entities
into the registries, skipping disabled names and silently dropping any
entity that is neither knowledge- nor repo-scoped. -/
def load_microagents (pm : PromptManager) (microagents : List BaseMicroAgent) : PromptManager :=
  microagents.foldl
    (fun pm ma =>
      if pm.disabled_microagents.contains ma.name then pm
      else
        match ma with
        | .knowledge k =>
          { pm with knowledge_microagents := dictInsert pm.knowledge_microagents k.name k }
        | .repo r =>
          { pm with repo_microagents := dictInsert pm.repo_microagents r.name r }
        | .other _ => pm)
    pm

/-- `PromptManager.get_system_message`: render the system template with no
variables and strip; returns the string and (unchanged) manager state. -/
def get_system_message (renderNoVars : String → String) (pm : PromptManager) :
    String × PromptManager :=
  (pyStrip (renderNoVars pm.system_template.source), pm)

/-- `PromptManager.get_example_user_message`: render the user template with
no variables and strip; returns the string and (unchanged) manager state. -/
def get_example_user_message (renderNoVars : String → String) (pm : PromptManager) :
    String × PromptManager :=
  (pyStrip (renderNoVars pm.user_template.source), pm)

/-- The `for content in reversed(message.content)` loop of
`enhance_message`: the text of the last `TextContent` block, if any. -/
def firstTextRev : List Content → Option String
  | [] => none
  | .text t :: _ => some t
  | .image _ :: rest => firstTextRev rest

/-- The text of the last text block of a content list, if any. -/
def lastTextOf (l : List Content) : Option String :=
  firstTextRev l.reverse

/-- A collected trigger match: the agent together with the trigger word. -/
structure TriggeredAgent where
  agent : KnowledgeMicroAgent
  trigger_word : String

/-- The match-collection loop of `enhance_message`: every registered
knowledge microagent is checked, in registry insertion order, and each
truthy match is appended to the collected list (no short-circuit). -/
def triggeredAgentsOf (pm : PromptManager) (message_content : String) : List TriggeredAgent :=
  pm.knowledge_microagents.foldl
    (fun acc p =>
      match p.2.match_trigger message_content with
      | some trigger => if trigger = "" then acc else acc ++ [⟨p.2, trigger⟩]
      | none => acc)
    []

/-- `PromptManager.build_microagent_info`: render the microagent-info
template over the triggered agents and strip. -/
def build_microagent_info (renderMI : String → List TriggeredAgent → String)
    (pm : PromptManager) (triggered_agents : List TriggeredAgent) : String :=
  pyStrip (renderMI pm.microagent_info_template.source triggered_agents)

/-- `PromptManager.enhance_message`: find the last text block; if it exists
and is non-empty, collect the trigger matches of every registered knowledge
microagent and, when any matched, insert the rendered microagent info as a
new text block at index 0 of the message's content. -/
def enhance_message (renderMI : String → List TriggeredAgent → String)
    (pm : PromptManager) (message : Message) : Message :=
  if message.content.isEmpty then message
  else
    let message_content := (lastTextOf message.content).getD ""
    if message_content = "" then message
    else
      let triggered_agents := triggeredAgentsOf pm message_content
      if triggered_agents.isEmpty then message
      else
        { message with
          content := Content.text (build_microagent_info renderMI pm triggered_agents)
            :: message.content }

/-- `PromptManager.add_examples_to_initial_message`: when the rendered
example user message is non-empty, insert it at index 0. -/
def add_examples_to_initial_message (renderNoVars : String → String)
    (pm : PromptManager) (message : Message) : Message :=
  let example_message := (get_example_user_message renderNoVars pm).1
  if example_message = "" then message
  else { message with content := Content.text example_message :: message.content }

/-- The `repo_instructions` accumulation loop of
`add_info_to_initial_message`. -/
def repoInstructions (pm : PromptManager) : String :=
  pm.repo_microagents.foldl
    (fun acc p => (if acc = "" then acc else acc ++ "\n\n") ++ p.2.content)
    ""

/-- The rendered and stripped additional-info text. -/
def additionalInfoText
    (renderAI : String → String → Option RepositoryInfo → RuntimeInfo → String)
    (pm : PromptManager) : String :=
  pyStrip (renderAI pm.additional_info_template.source (repoInstructions pm)
    pm.repository_info pm.runtime_info)

/-- `PromptManager.add_info_to_initial_message`: asserts that at most one
repo microagent is registered (an `AssertionError` otherwise), concatenates
the repo instructions, renders the additional-info template, and when the
stripped result is non-empty inserts it at index 0 of the message. -/
def add_info_to_initial_message
    (renderAI : String → String → Option RepositoryInfo → RuntimeInfo → String)
    (pm : PromptManager) (message : Message) : Except PromptError Message :=
  if pm.repo_microagents.length ≤ 1 then
    let additional_info := additionalInfoText renderAI pm
    if additional_info = "" then .ok message
    else .ok { message with content := Content.text additional_info :: message.content }
  else
    .error (.assertionError
      ("Expecting at most one repo microagent, but found "
        ++ toString pm.repo_microagents.length ++ ": "
        ++ toString (pm.repo_microagents.map Prod.fst)))

/-- The filter of `add_turns_left_reminder`: a user-role message holding at
least one text block. -/
def isUserWithText (m : Message) : Bool :=
  m.role == "user" && m.content.any Content.isText

/-- `next(islice((m for m in reversed(messages) if ...), 1), None)`: the
first element, scanning from the end, that passes the filter — `islice`
with a single argument takes the first `stop` elements, it does not skip. -/
def latestUserMessage (messages : List Message) : Option Message :=
  ((messages.reverse.filter isUserWithText).take 1).head?

/-- The reminder text, with the remaining-turn count computed as
`max_iterations - iteration` (no lower bound). -/
def reminderText (state : State) : String :=
  "\n\nENVIRONMENT REMINDER: You have "
    ++ toString (state.max_iterations - state.iteration)
    ++ " turns left to complete the task. When finished reply with <finish></finish>."

/-- Append the reminder block to the first filter-passing message of the
reversed list — i.e. mutate, inside the original list, exactly the message
object that `latestUserMessage` found. -/
def appendReminderRev (rem : String) : List Message → List Message
  | [] => []
  | m :: rest =>
    if isUserWithText m then
      { m with content := m.content ++ [Content.text rem] } :: rest
    else
      m :: appendReminderRev rem rest

/-- `PromptManager.add_turns_left_reminder`: find the latest user message
holding a text block and append the turns-left reminder to the end of its
content; no-op when no such message exists. -/
def add_turns_left_reminder (messages : List Message) (state : State) : List Message :=
  match latestUserMessage messages with
  | none => messages
  | some _ => (appendReminderRev (reminderText state) messages.reverse).reverse

/-- The discriminator for a fatal assertion fault among the raised errors. -/
def isAssertionFault {α : Type} : Except PromptError α → Bool
  | .error (.assertionError _) => true
  | _ => false

/-- The fixed set of template names loaded at construction. -/
def templateNames : List String :=
  ["system_prompt", "user_prompt", "additional_info", "microagent_info"]

/-- All four expected template files exist under the (set) prompt directory. -/
def templatesAllPresent : Option String → (String → Option String) → Bool
  | none, _ => false
  | some d, fs => templateNames.all (fun n => (fs (templatePath d n)).isSome)

/-- The invariant of the two registries: no disabled name is a key of
either the knowledge or the repo registry. -/
def registriesAvoidDisabled (pm : PromptManager) : Prop :=
  ∀ n ∈ pm.disabled_microagents,
    pm.knowledge_microagents.any (fun p => p.1 == n) = false ∧
    pm.repo_microagents.any (fun p => p.1 == n) = false

/-- One trigger-match attempt, as an optional collected entry. -/
def triggerHit (t : String) (p : String × KnowledgeMicroAgent) : Option TriggeredAgent :=
  match p.2.match_trigger t with
  | some w => if w = "" then none else some ⟨p.2, w⟩
  | none => none

/-- The three content-injecting calls, for reasoning about call sequences. -/
inductive OpKind where
  | enhance
  | addExamples
  | addInfo

/-- The fixed environment of a call sequence: the render collaborators and
the manager. -/
structure Env where
  renderMI : String → List TriggeredAgent → String
  renderNoVars : String → String
  renderAI : String → String → Option RepositoryInfo → RuntimeInfo → String
  pm : PromptManager

/-- Dispatch one of the three injecting calls on a message. -/
def applyOp (env : Env) : OpKind → Message → Except PromptError Message
  | .enhance, m => .ok (enhance_message env.renderMI env.pm m)
  | .addExamples, m => .ok (add_examples_to_initial_message env.renderNoVars env.pm m)
  | .addInfo, m => add_info_to_initial_message env.renderAI env.pm m

/-- The blocks one call inserts at index 0 (zero or one), read off the same
conditions as the source functions. -/
def injectedOf (env : Env) : OpKind → Message → List Content
  | .enhance, m =>
    if m.content.isEmpty then []
    else
      let message_content := (lastTextOf m.content).getD ""
      if message_content = "" then []
      else
        let triggered_agents := triggeredAgentsOf env.pm message_content
        if triggered_agents.isEmpty then []
        else [Content.text (build_microagent_info env.renderMI env.pm triggered_agents)]
  | .addExamples, _ =>
    let example_message := (get_example_user_message env.renderNoVars env.pm).1
    if example_message = "" then [] else [Content.text example_message]
  | .addInfo, _ =>
    if env.pm.repo_microagents.length ≤ 1 then
      let additional_info := additionalInfoText env.renderAI env.pm
      if additional_info = "" then [] else [Content.text additional_info]
    else []

/-- Run a sequence of injecting calls, collecting (in call order) the
blocks each call inserted. -/
def applyOpsCollect (env : Env) :
    List OpKind → Message → Except PromptError (Message × List Content)
  | [], m => .ok (m, [])
  | op :: ops, m =>
    match applyOp env op m with
    | .error e => .error e
    | .ok m₁ =>
      match applyOpsCollect env ops m₁ with
      | .error e => .error e
      | .ok (m', inj) => .ok (m', injectedOf env op m ++ inj)

/-- Concrete fixtures used by the witnesses. -/
def kmW : KnowledgeMicroAgent :=
  ⟨"greeter", fun s => if s = "hello" then some "hello" else none⟩

/-- A concrete manager with one knowledge microagent and a disable-list. -/
def pmW : PromptManager :=
  { disabled_microagents := ["off"]
    prompt_dir := some "p"
    repository_info := none
    system_template := ⟨"sys"⟩
    user_template := ⟨"usr"⟩
    additional_info_template := ⟨"add"⟩
    microagent_info_template := ⟨"mi"⟩
    runtime_info := ⟨[]⟩
    knowledge_microagents := [("greeter", kmW)]
    repo_microagents := [] }

/-- A concrete render collaborator for the microagent-info template. -/
def renderMIW : String → List TriggeredAgent → String := fun _ _ => "MI"

/-- A concrete no-variable render collaborator. -/
def renderNoVarsW : String → String := fun s => s

/-- A concrete render collaborator for the additional-info template. -/
def renderAIW : String → String → Option RepositoryInfo → RuntimeInfo → String :=
  fun _ _ _ _ => "AI"

/-- A concrete call environment. -/
def envW : Env := ⟨renderMIW, renderNoVarsW, renderAIW, pmW⟩

/-- A concrete filesystem holding every requested file. -/
def fsW : String → Option String := fun _ => some "T"

/-- A concrete microagent loader returning empty collections. -/
def lfdW : String →
    List (String × RepoMicroAgent) × List (String × KnowledgeMicroAgent) ×
      List (String × BaseMicroAgent) :=
  fun _ => ([], [], [])

/- ======================  Helper lemmas  ====================== -/

theorem appendReminderRev_all_neg (rem : String) (l : List Message)
    (h : ∀ x ∈ l, isUserWithText x = false) : appendReminderRev rem l = l := by
  induction l with
  | nil => rfl
  | cons m rest ih =>
    have hm := h m (by simp)
    simp only [appendReminderRev, hm, Bool.false_eq_true, if_false, List.cons.injEq, true_and]
    exact ih (fun x hx => h x (by simp [hx]))

theorem appendReminderRev_hit (rem : String) (l₁ l₂ : List Message) (m : Message)
    (h₁ : ∀ x ∈ l₁, isUserWithText x = false) (hm : isUserWithText m = true) :
    appendReminderRev rem (l₁ ++ m :: l₂) =
      l₁ ++ { m with content := m.content ++ [Content.text rem] } :: l₂ := by
  induction l₁ with
  | nil => simp [appendReminderRev, hm]
  | cons a rest ih =>
    have ha := h₁ a (by simp)
    simp only [List.cons_append, appendReminderRev, ha, Bool.false_eq_true, if_false,
      List.cons.injEq, true_and]
    exact ih (fun x hx => h₁ x (by simp [hx]))

theorem latestUserMessage_found (pre post : List Message) (m : Message)
    (hm : isUserWithText m = true) (hpost : ∀ x ∈ post, isUserWithText x = false) :
    latestUserMessage (pre ++ m :: post) = some m := by
  unfold latestUserMessage
  have hrev : (pre ++ m :: post).reverse = post.reverse ++ m :: pre.reverse := by simp
  rw [hrev, List.filter_append]
  have hnil : post.reverse.filter isUserWithText = [] := by
    rw [List.filter_eq_nil_iff]
    intro a ha
    simp [hpost a (List.mem_reverse.mp ha)]
  rw [hnil, List.nil_append, List.filter_cons_of_pos hm]
  rfl

theorem add_turns_left_spec (s : State) (pre post : List Message) (m : Message)
    (hm : isUserWithText m = true) (hpost : ∀ x ∈ post, isUserWithText x = false) :
    add_turns_left_reminder (pre ++ m :: post) s =
      pre ++ { m with content := m.content ++ [Content.text (reminderText s)] } :: post := by
  unfold add_turns_left_reminder
  rw [latestUserMessage_found pre post m hm hpost]
  have hrev : (pre ++ m :: post).reverse = post.reverse ++ m :: pre.reverse := by simp
  rw [hrev, appendReminderRev_hit _ _ _ _ (fun x hx => hpost x (List.mem_reverse.mp hx)) hm]
  simp

/- ======================  Claim theorems  ====================== -/

/-- C1, counterexample: on `[user "a", assistant "b", user "c"]` with
`max_iterations = 10` and `iteration = 3`, the reminder (mentioning 7 turns
left) is appended to the latest user message `"c"`, while the first user
message `"a"` is left untouched — contradicting the claim that the most
recent message is skipped and `"a"` receives the reminder. -/
theorem C1_counterexample :
    add_turns_left_reminder
        [⟨"user", [Content.text "a"]⟩, ⟨"assistant", [Content.text "b"]⟩,
         ⟨"user", [Content.text "c"]⟩] ⟨10, 3⟩ =
      [⟨"user", [Content.text "a"]⟩, ⟨"assistant", [Content.text "b"]⟩,
       ⟨"user", [Content.text "c",
         Content.text "\n\nENVIRONMENT REMINDER: You have 7 turns left to complete the task. When finished reply with <finish></finish>."]⟩]
    ∧ add_turns_left_reminder
        [⟨"user", [Content.text "a"]⟩, ⟨"assistant", [Content.text "b"]⟩,
         ⟨"user", [Content.text "c"]⟩] ⟨10, 3⟩ ≠
      [⟨"user", [Content.text "a",
         Content.text "\n\nENVIRONMENT REMINDER: You have 7 turns left to complete the task. When finished reply with <finish></finish>."]⟩,
       ⟨"assistant", [Content.text "b"]⟩, ⟨"user", [Content.text "c"]⟩] :=
  ⟨rfl, by decide⟩

/-- C1 (amended): `add_turns_left_reminder` scans the message list from the
end and appends the remaining-turns reminder to the end of the content of
the MOST recent user-role message containing a text block (no message is
skipped); every other message is unchanged. -/
theorem C1_theorem (s : State) (pre post : List Message) (m : Message)
    (hm : isUserWithText m = true) (hpost : ∀ x ∈ post, isUserWithText x = false) :
    add_turns_left_reminder (pre ++ m :: post) s =
      pre ++ { m with content := m.content ++ [Content.text (reminderText s)] } :: post :=
  add_turns_left_spec s pre post m hm hpost

/-- C1, witness: the amended statement evaluated on the spec's example. -/
theorem C1_witness :
    add_turns_left_reminder
        ([⟨"user", [Content.text "a"]⟩, ⟨"assistant", [Content.text "b"]⟩] ++
          ⟨"user", [Content.text "c"]⟩ :: []) ⟨10, 3⟩ =
      [⟨"user", [Content.text "a"]⟩, ⟨"assistant", [Content.text "b"]⟩] ++
        ⟨"user", [Content.text "c", Content.text (reminderText ⟨10, 3⟩)]⟩ :: [] :=
  C1_theorem ⟨10, 3⟩ [⟨"user", [Content.text "a"]⟩, ⟨"assistant", [Content.text "b"]⟩] []
    ⟨"user", [Content.text "c"]⟩ (by decide) (fun x hx => absurd hx (List.not_mem_nil x))

/-- C10: the remaining-turn count is `max_iterations - iteration` with no
lower bound: even when `iteration ≥ max_iterations` the reminder is still
appended, stating a count that is zero or negative. -/
theorem C10_theorem (s : State) (pre post : List Message) (m : Message)
    (hm : isUserWithText m = true) (hpost : ∀ x ∈ post, isUserWithText x = false)
    (hit : s.max_iterations ≤ s.iteration) :
    s.max_iterations - s.iteration ≤ 0 ∧
    reminderText s =
      "\n\nENVIRONMENT REMINDER: You have "
        ++ toString (s.max_iterations - s.iteration)
        ++ " turns left to complete the task. When finished reply with <finish></finish>."
    ∧ add_turns_left_reminder (pre ++ m :: post) s =
      pre ++ { m with content := m.content ++ [Content.text (reminderText s)] } :: post :=
  ⟨by omega, rfl, add_turns_left_spec s pre post m hm hpost⟩

/-- C10, witness: with `max_iterations = 5`, `iteration = 7` the reminder
is still appended and mentions `-2` turns left. -/
theorem C10_witness :
    (5 : Int) - 7 ≤ 0 ∧
    reminderText ⟨5, 7⟩ =
      "\n\nENVIRONMENT REMINDER: You have "
        ++ toString ((5 : Int) - 7)
        ++ " turns left to complete the task. When finished reply with <finish></finish>."
    ∧ add_turns_left_reminder ([] ++ ⟨"user", [Content.text "x"]⟩ :: []) ⟨5, 7⟩ =
      [] ++ ⟨"user", [Content.text "x", Content.text (reminderText ⟨5, 7⟩)]⟩ :: [] :=
  C10_theorem ⟨5, 7⟩ [] [] ⟨"user", [Content.text "x"]⟩ (by decide)
    (fun x hx => absurd hx (List.not_mem_nil x)) (by decide)

/-- C2: `add_info_to_initial_message` raises a fatal assertion fault
exactly when two or more repo microagents are registered, and returns
normally exactly when at most one is. -/
theorem C2_theorem (renderAI : String → String → Option RepositoryInfo → RuntimeInfo → String)
    (pm : PromptManager) (m : Message) :
    isAssertionFault (add_info_to_initial_message renderAI pm m) =
      decide (2 ≤ pm.repo_microagents.length)
    ∧ (add_info_to_initial_message renderAI pm m).isOk =
      decide (pm.repo_microagents.length ≤ 1) := by
  by_cases h : pm.repo_microagents.length ≤ 1
  · have h2 : ¬ (2 ≤ pm.repo_microagents.length) := by omega
    simp only [add_info_to_initial_message, if_pos h]
    constructor
    · split <;> simp [isAssertionFault, h2]
    · split <;> simp [Except.isOk, Except.toBool, h]
  · have h2 : 2 ≤ pm.repo_microagents.length := by omega
    simp only [add_info_to_initial_message, if_neg h]
    exact ⟨by simp [isAssertionFault, h2], by simp [Except.isOk, Except.toBool, h]⟩

theorem dictInsert_any_key {α : Type} (d : List (String × α)) (k : String) (v : α) (n : String)
    (h : (dictInsert d k v).any (fun p => p.1 == n) = true) :
    d.any (fun p => p.1 == n) = true ∨ k = n := by
  unfold dictInsert at h
  split at h
  · obtain ⟨p, hpd, hcond⟩ := List.any_eq_true.mp h
    obtain ⟨q, hqd, hq⟩ := List.mem_map.mp hpd
    by_cases hk : q.1 == k
    · right
      rw [if_pos hk] at hq
      rw [← hq] at hcond
      exact eq_of_beq hcond
    · left
      rw [if_neg hk] at hq
      exact List.any_eq_true.mpr ⟨q, hqd, hq ▸ hcond⟩
  · rw [List.any_append] at h
    rcases Bool.or_eq_true_iff.mp h with h | h
    · exact Or.inl h
    · right
      simp only [List.any_cons, List.any_nil, Bool.or_false] at h
      exact eq_of_beq h

theorem dictInsert_any_key_neg {α : Type} (d : List (String × α)) (k n : String) (v : α)
    (hd : d.any (fun p => p.1 == n) = false) (hk : k ≠ n) :
    (dictInsert d k v).any (fun p => p.1 == n) = false := by
  cases hins : (dictInsert d k v).any (fun p => p.1 == n) with
  | false => rfl
  | true =>
    rcases dictInsert_any_key d k v n hins with h | h
    · rw [h] at hd; exact absurd hd (by simp)
    · exact absurd h hk

theorem registerFiltered_avoid {α : Type} (disabled : List String)
    (l : List (String × α)) (n : String) (hn : n ∈ disabled) :
    (registerFiltered disabled l).any (fun p => p.1 == n) = false := by
  suffices h : ∀ acc : List (String × α), acc.any (fun p => p.1 == n) = false →
      (l.foldl (fun acc p => if disabled.contains p.1 then acc else dictInsert acc p.1 p.2)
        acc).any (fun p => p.1 == n) = false by
    exact h [] rfl
  induction l with
  | nil => intro acc hacc; exact hacc
  | cons x xs ih =>
    intro acc hacc
    rw [List.foldl_cons]
    by_cases hx : disabled.contains x.1
    · rw [if_pos hx]; exact ih acc hacc
    · rw [if_neg hx]
      refine ih _ (dictInsert_any_key_neg acc x.1 n x.2 hacc ?_)
      intro heq
      exact hx (by rw [heq]; simpa using hn)

theorem load_microagents_avoid (pm : PromptManager) (ms : List BaseMicroAgent)
    (h : registriesAvoidDisabled pm) : registriesAvoidDisabled (load_microagents pm ms) := by
  induction ms generalizing pm with
  | nil => exact h
  | cons ma rest ih =>
    show registriesAvoidDisabled ((ma :: rest).foldl _ pm)
    rw [List.foldl_cons]
    by_cases hma : pm.disabled_microagents.contains ma.name
    · simp only [hma, if_true]
      exact ih pm h
    · simp only [hma, Bool.false_eq_true, if_false]
      cases ma with
      | knowledge k =>
        refine ih _ (fun n hn => ?_)
        have hn' : n ∈ pm.disabled_microagents := hn
        obtain ⟨h1, h2⟩ := h n hn'
        refine ⟨?_, h2⟩
        refine dictInsert_any_key_neg _ _ _ _ h1 ?_
        intro heq
        apply hma
        show pm.disabled_microagents.contains k.name = true
        rw [heq]
        simpa using hn'
      | repo r =>
        refine ih _ (fun n hn => ?_)
        have hn' : n ∈ pm.disabled_microagents := hn
        obtain ⟨h1, h2⟩ := h n hn'
        refine ⟨h1, ?_⟩
        refine dictInsert_any_key_neg _ _ _ _ h2 ?_
        intro heq
        apply hma
        show pm.disabled_microagents.contains r.name = true
        rw [heq]
        simpa using hn'
      | other nm => exact ih pm h

/-- C5: construction never registers a disabled name (whatever the loader
returns), `load_microagents` preserves that invariant (a disabled name is
skipped even when passed explicitly), and an entity that is neither a
knowledge nor a repo microagent is silently dropped; hence no disabled
name ever appears in either registry. -/
theorem C5_theorem :
    (∀ pd fs md lfd dm pm, PromptManager.init pd fs md lfd dm = .ok pm →
      registriesAvoidDisabled pm)
    ∧ (∀ pm ms, registriesAvoidDisabled pm →
      registriesAvoidDisabled (load_microagents pm ms))
    ∧ (∀ pm nm, load_microagents pm [BaseMicroAgent.other nm] = pm) := by
  refine ⟨?_, load_microagents_avoid, ?_⟩
  · intro pd fs md lfd dm pm h
    unfold PromptManager.init at h
    split at h
    · exact absurd h (by simp)
    split at h
    · exact absurd h (by simp)
    split at h
    · exact absurd h (by simp)
    split at h
    · exact absurd h (by simp)
    split at h
    · simp only [Except.ok.injEq] at h
      intro n hn
      rw [← h]
      exact ⟨rfl, rfl⟩
    · simp only [Except.ok.injEq] at h
      intro n hn
      rw [← h] at hn ⊢
      exact ⟨registerFiltered_avoid _ _ _ hn, registerFiltered_avoid _ _ _ hn⟩
  · intro pm nm
    show List.foldl _ pm _ = pm
    rw [List.foldl_cons]
    by_cases hx : pm.disabled_microagents.contains (BaseMicroAgent.other nm).name <;>
      simp [hx, List.foldl_nil]

/-- C5, witness: a freshly constructed manager with disable-list `["off"]`
avoids the disabled name, that property is kept through a
`load_microagents` call that passes a disabled knowledge microagent
explicitly, and an `other`-kind entity is dropped. -/
theorem C5_witness :
    registriesAvoidDisabled (initBase (some "p") ["off"] ⟨"T"⟩ ⟨"T"⟩ ⟨"T"⟩ ⟨"T"⟩)
    ∧ registriesAvoidDisabled
      (load_microagents pmW [BaseMicroAgent.knowledge ⟨"off", fun _ => none⟩])
    ∧ load_microagents pmW [BaseMicroAgent.other "mystery"] = pmW :=
  ⟨C5_theorem.1 (some "p") fsW (some "m") lfdW (some ["off"])
      (initBase (some "p") ["off"] ⟨"T"⟩ ⟨"T"⟩ ⟨"T"⟩ ⟨"T"⟩) rfl,
    C5_theorem.2.1 pmW [BaseMicroAgent.knowledge ⟨"off", fun _ => none⟩]
      (fun n hn => by
        have hn' : n = "off" := by simpa [pmW] using hn
        subst hn'
        exact ⟨rfl, rfl⟩),
    C5_theorem.2.2 pmW "mystery"⟩

/-- C6: construction returns normally exactly when the prompt directory is
set and all four expected template files exist (so a missing directory or
file is an immediate error), and on success each template is exactly the
file's contents — no default or fallback template. -/
theorem C6_theorem (pd : Option String) (fs : String → Option String)
    (md : Option String)
    (lfd : String →
      List (String × RepoMicroAgent) × List (String × KnowledgeMicroAgent) ×
        List (String × BaseMicroAgent))
    (dm : Option (List String)) :
    (PromptManager.init pd fs md lfd dm).isOk = templatesAllPresent pd fs
    ∧ (templatesAllPresent pd fs = true →
        ∃ d pm, pd = some d ∧ PromptManager.init pd fs md lfd dm = .ok pm
          ∧ fs (templatePath d "system_prompt") = some pm.system_template.source
          ∧ fs (templatePath d "user_prompt") = some pm.user_template.source
          ∧ fs (templatePath d "additional_info") = some pm.additional_info_template.source
          ∧ fs (templatePath d "microagent_info") = some pm.microagent_info_template.source) := by
  cases pd with
  | none =>
    constructor
    · simp [PromptManager.init, load_template, templatesAllPresent, Except.isOk, Except.toBool]
    · intro h
      exact absurd h (by simp [templatesAllPresent])
  | some d =>
    cases h1 : fs (templatePath d "system_prompt") with
    | none =>
      constructor
      · simp [PromptManager.init, load_template, h1, templatesAllPresent, templateNames,
          Except.isOk, Except.toBool]
      · intro h
        rw [templatesAllPresent] at h
        simp [templateNames, h1] at h
    | some t1 =>
      cases h2 : fs (templatePath d "user_prompt") with
      | none =>
        constructor
        · simp [PromptManager.init, load_template, h1, h2, templatesAllPresent, templateNames,
            Except.isOk, Except.toBool]
        · intro h
          rw [templatesAllPresent] at h
          simp [templateNames, h2] at h
      | some t2 =>
        cases h3 : fs (templatePath d "additional_info") with
        | none =>
          constructor
          · simp [PromptManager.init, load_template, h1, h2, h3, templatesAllPresent,
              templateNames, Except.isOk, Except.toBool]
          · intro h
            rw [templatesAllPresent] at h
            simp [templateNames, h3] at h
        | some t3 =>
          cases h4 : fs (templatePath d "microagent_info") with
          | none =>
            constructor
            · simp [PromptManager.init, load_template, h1, h2, h3, h4, templatesAllPresent,
                templateNames, Except.isOk, Except.toBool]
            · intro h
              rw [templatesAllPresent] at h
              simp [templateNames, h4] at h
          | some t4 =>
            constructor
            · cases md <;>
                simp [PromptManager.init, load_template, h1, h2, h3, h4, templatesAllPresent,
                  templateNames, Except.isOk, Except.toBool]
            · intro _
              cases md with
              | none =>
                refine ⟨d, initBase (some d) (dm.getD []) ⟨t1⟩ ⟨t2⟩ ⟨t3⟩ ⟨t4⟩, rfl,
                  ?_, ?_, ?_, ?_, ?_⟩
                · simp [PromptManager.init, load_template, h1, h2, h3, h4]
                · exact h1
                · exact h2
                · exact h3
                · exact h4
              | some dir =>
                refine ⟨d,
                  { initBase (some d) (dm.getD []) ⟨t1⟩ ⟨t2⟩ ⟨t3⟩ ⟨t4⟩ with
                    knowledge_microagents := registerFiltered (dm.getD []) (lfd dir).2.1
                    repo_microagents := registerFiltered (dm.getD []) (lfd dir).1 }, rfl,
                  ?_, ?_, ?_, ?_, ?_⟩
                · simp [PromptManager.init, load_template, h1, h2, h3, h4]
                · exact h1
                · exact h2
                · exact h3
                · exact h4

/-- C6, witness: with every file present, construction succeeds and the
four templates hold the file contents. -/
theorem C6_witness :
    ∃ d pm, (some "p" : Option String) = some d
      ∧ PromptManager.init (some "p") fsW none lfdW none = .ok pm
      ∧ fsW (templatePath d "system_prompt") = some pm.system_template.source
      ∧ fsW (templatePath d "user_prompt") = some pm.user_template.source
      ∧ fsW (templatePath d "additional_info") = some pm.additional_info_template.source
      ∧ fsW (templatePath d "microagent_info") = some pm.microagent_info_template.source :=
  (C6_theorem (some "p") fsW none lfdW none).2 rfl

/-- C7: `get_system_message` and `get_example_user_message` return the
stripped render of their template with no variables, leave the manager
unchanged, and a second call returns the same output. -/
theorem C7_theorem (renderNoVars : String → String) (pm : PromptManager) :
    (get_system_message renderNoVars pm).1 = pyStrip (renderNoVars pm.system_template.source)
    ∧ (get_system_message renderNoVars pm).2 = pm
    ∧ (get_system_message renderNoVars ((get_system_message renderNoVars pm).2)).1 =
        (get_system_message renderNoVars pm).1
    ∧ (get_example_user_message renderNoVars pm).1 =
        pyStrip (renderNoVars pm.user_template.source)
    ∧ (get_example_user_message renderNoVars pm).2 = pm
    ∧ (get_example_user_message renderNoVars ((get_example_user_message renderNoVars pm).2)).1 =
        (get_example_user_message renderNoVars pm).1 :=
  ⟨rfl, rfl, rfl, rfl, rfl, rfl⟩

theorem triggeredFold_eq (t : String) (l : List (String × KnowledgeMicroAgent))
    (acc : List TriggeredAgent) :
    l.foldl
      (fun acc p =>
        match p.2.match_trigger t with
        | some trigger => if trigger = "" then acc else acc ++ [⟨p.2, trigger⟩]
        | none => acc)
      acc = acc ++ l.filterMap (triggerHit t) := by
  induction l generalizing acc with
  | nil => simp
  | cons x xs ih =>
    rw [List.foldl_cons, List.filterMap_cons]
    cases hx : x.2.match_trigger t with
    | none =>
      simp only [hx, triggerHit]
      exact ih acc
    | some w =>
      simp only [hx, triggerHit]
      by_cases hw : w = ""
      · rw [if_pos hw, if_pos hw]
        exact ih acc
      · rw [if_neg hw, if_neg hw]
        show _ = acc ++ ({ agent := x.2, trigger_word := w } :: List.filterMap (triggerHit t) xs)
        have h1 := ih (acc ++ [{ agent := x.2, trigger_word := w }])
        rw [List.append_assoc] at h1
        exact h1

theorem triggeredAgentsOf_eq (pm : PromptManager) (t : String) :
    triggeredAgentsOf pm t = pm.knowledge_microagents.filterMap (triggerHit t) := by
  unfold triggeredAgentsOf
  rw [triggeredFold_eq]
  simp

theorem lastTextOf_nil : lastTextOf [] = none := rfl

/-- C3: when the last text block of a message matches at least one
registered knowledge microagent, `enhance_message` prepends exactly one
text block at content index 0, holding the rendered microagent info over
the full list of matches — a list collected by checking every registered
microagent in registry insertion order, with no short-circuit. -/
theorem C3_theorem (renderMI : String → List TriggeredAgent → String)
    (pm : PromptManager) (m : Message) (t : String)
    (hlast : lastTextOf m.content = some t) (ht : t ≠ "")
    (htrig : triggeredAgentsOf pm t ≠ []) :
    enhance_message renderMI pm m =
      { m with content :=
          Content.text (build_microagent_info renderMI pm (triggeredAgentsOf pm t))
            :: m.content }
    ∧ triggeredAgentsOf pm t = pm.knowledge_microagents.filterMap (triggerHit t) := by
  refine ⟨?_, triggeredAgentsOf_eq pm t⟩
  have hne : m.content.isEmpty = false := by
    cases hc : m.content with
    | nil => rw [hc] at hlast; exact absurd hlast (by simp [lastTextOf_nil])
    | cons a l => rfl
  unfold enhance_message
  rw [hne]
  simp only [Bool.false_eq_true, if_false, hlast, Option.getD_some]
  rw [if_neg ht]
  have hne2 : (triggeredAgentsOf pm t).isEmpty = false := by
    cases hc : triggeredAgentsOf pm t with
    | nil => exact absurd hc htrig
    | cons a l => rfl
  rw [hne2]
  simp

/-- C3, witness: a message whose last text block is `"hello"` triggers the
registered `greeter` microagent and gets exactly one block prepended. -/
theorem C3_witness :
    enhance_message renderMIW pmW ⟨"user", [Content.text "hello"]⟩ =
      { role := "user",
        content :=
          Content.text (build_microagent_info renderMIW pmW (triggeredAgentsOf pmW "hello"))
            :: [Content.text "hello"] }
    ∧ triggeredAgentsOf pmW "hello" = pmW.knowledge_microagents.filterMap (triggerHit "hello") :=
  C3_theorem renderMIW pmW ⟨"user", [Content.text "hello"]⟩ "hello" rfl (by decide)
    (by
      intro h
      have hl : (triggeredAgentsOf pmW "hello").length = 1 := rfl
      rw [h] at hl
      simp at hl)

/-- C4: `enhance_message` is a no-op whenever the message's content list is
empty or no registered knowledge microagent's trigger matches the last
text block. -/
theorem C4_theorem (renderMI : String → List TriggeredAgent → String)
    (pm : PromptManager) (m : Message)
    (h : m.content = [] ∨ triggeredAgentsOf pm ((lastTextOf m.content).getD "") = []) :
    enhance_message renderMI pm m = m := by
  unfold enhance_message
  rcases h with h | h
  · simp [h]
  · cases hc : m.content.isEmpty with
    | true => simp
    | false =>
      simp only [hc, Bool.false_eq_true, if_false]
      by_cases hmc : (lastTextOf m.content).getD "" = ""
      · rw [if_pos hmc]
      · rw [if_neg hmc]
        have : (triggeredAgentsOf pm ((lastTextOf m.content).getD "")).isEmpty = true := by
          rw [h]; rfl
        rw [this]
        simp

/-- C4, witness: a message whose last text block matches no registered
trigger is unchanged. -/
theorem C4_witness :
    enhance_message renderMIW pmW ⟨"user", [Content.text "nothing here"]⟩ =
      ⟨"user", [Content.text "nothing here"]⟩ :=
  C4_theorem renderMIW pmW ⟨"user", [Content.text "nothing here"]⟩ (Or.inr rfl)

/-- C9: triggers are matched only against the last text block: when that
block's text is the empty string the call is a no-op, even if an earlier
text block of the same message contains a registered trigger keyword. -/
theorem C9_theorem (renderMI : String → List TriggeredAgent → String)
    (pm : PromptManager) (m : Message)
    (hlast : lastTextOf m.content = some "") :
    enhance_message renderMI pm m = m := by
  unfold enhance_message
  cases hc : m.content.isEmpty with
  | true => simp
  | false =>
    simp only [hc, Bool.false_eq_true, if_false, hlast, Option.getD_some]
    simp

/-- C9, witness: an earlier block `"hello"` matches the registered trigger,
but with an empty last text block the message is unchanged. -/
theorem C9_witness :
    enhance_message renderMIW pmW ⟨"user", [Content.text "hello", Content.text ""]⟩ =
      ⟨"user", [Content.text "hello", Content.text ""]⟩ :=
  C9_theorem renderMIW pmW ⟨"user", [Content.text "hello", Content.text ""]⟩ rfl

theorem reverse_eq_of_len_le_one {α : Type} (l : List α) (h : l.length ≤ 1) :
    l.reverse = l := by
  match l with
  | [] => rfl
  | [a] => rfl
  | a :: b :: t => exact absurd h (by simp)

theorem injectedOf_length (env : Env) (op : OpKind) (m : Message) :
    (injectedOf env op m).length ≤ 1 := by
  cases op with
  | enhance =>
    simp only [injectedOf]
    split
    · simp
    · split
      · simp
      · split <;> simp
  | addExamples =>
    simp only [injectedOf]
    split <;> simp
  | addInfo =>
    simp only [injectedOf]
    split
    · split <;> simp
    · simp

theorem applyOp_content (env : Env) (op : OpKind) (m m₁ : Message)
    (h : applyOp env op m = .ok m₁) :
    m₁.content = injectedOf env op m ++ m.content ∧ m₁.role = m.role := by
  cases op with
  | enhance =>
    simp only [applyOp, Except.ok.injEq] at h
    subst h
    simp only [enhance_message, injectedOf]
    cases hc : m.content.isEmpty with
    | true => simp
    | false =>
      simp only [hc, Bool.false_eq_true, if_false]
      by_cases hmc : (lastTextOf m.content).getD "" = ""
      · rw [if_pos hmc, if_pos hmc]
        simp
      · rw [if_neg hmc, if_neg hmc]
        cases ht : (triggeredAgentsOf env.pm ((lastTextOf m.content).getD "")).isEmpty with
        | true => simp [ht]
        | false => simp [ht]
  | addExamples =>
    simp only [applyOp, Except.ok.injEq] at h
    subst h
    simp only [add_examples_to_initial_message, injectedOf]
    by_cases he : (get_example_user_message env.renderNoVars env.pm).1 = ""
    · rw [if_pos he, if_pos he]
      simp
    · rw [if_neg he, if_neg he]
      simp
  | addInfo =>
    simp only [applyOp, add_info_to_initial_message] at h
    simp only [injectedOf]
    by_cases hl : env.pm.repo_microagents.length ≤ 1
    · rw [if_pos hl] at h
      rw [if_pos hl]
      by_cases ha : additionalInfoText env.renderAI env.pm = ""
      · rw [if_pos ha] at h
        rw [if_pos ha]
        simp only [Except.ok.injEq] at h
        subst h
        simp
      · rw [if_neg ha] at h
        rw [if_neg ha]
        simp only [Except.ok.injEq] at h
        subst h
        simp
    · rw [if_neg hl] at h
      exact absurd h (by simp)

/-- C8: each of the three injecting calls inserts its new text block at
index 0 of the message's content, so across any successful sequence of such
calls the final content is the injected blocks in reverse call order,
followed by the original content (the original user text stays last). -/
theorem C8_theorem :
    (∀ env op m m₁, applyOp env op m = .ok m₁ →
        m₁.content = injectedOf env op m ++ m.content)
    ∧ (∀ env ops m mfin inj, applyOpsCollect env ops m = .ok (mfin, inj) →
        mfin.content = inj.reverse ++ m.content) := by
  refine ⟨fun env op m m₁ h => (applyOp_content env op m m₁ h).1, ?_⟩
  intro env ops
  induction ops with
  | nil =>
    intro m mfin inj h
    simp only [applyOpsCollect, Except.ok.injEq, Prod.mk.injEq] at h
    rw [← h.1, ← h.2]
    simp
  | cons op ops ih =>
    intro m mfin inj h
    simp only [applyOpsCollect] at h
    split at h
    · exact absurd h (by simp)
    · rename_i m₁ h1
      split at h
      · exact absurd h (by simp)
      · rename_i mr injr h2
        simp only [Except.ok.injEq, Prod.mk.injEq] at h
        obtain ⟨hm, hinj⟩ := h
        rw [← hm, ← hinj]
        calc mr.content = injr.reverse ++ m₁.content := ih m₁ mr injr h2
          _ = injr.reverse ++ (injectedOf env op m ++ m.content) := by
              rw [(applyOp_content env op m m₁ h1).1]
          _ = (injectedOf env op m ++ injr).reverse ++ m.content := by
              rw [List.reverse_append,
                reverse_eq_of_len_le_one _ (injectedOf_length env op m), List.append_assoc]

/-- C8, witness: running `add_examples_to_initial_message` then
`add_info_to_initial_message` on a one-block user message leaves the
injected blocks in reverse call order, with the original text last. -/
theorem C8_witness :
    (Message.mk "user" [Content.text "AI", Content.text "usr", Content.text "hi"]).content =
      ([Content.text "usr", Content.text "AI"]).reverse ++
        (Message.mk "user" [Content.text "hi"]).content :=
  C8_theorem.2 envW [OpKind.addExamples, OpKind.addInfo] ⟨"user", [Content.text "hi"]⟩
    ⟨"user", [Content.text "AI", Content.text "usr", Content.text "hi"]⟩
    [Content.text "usr", Content.text "AI"] rfl

end OpenHands
